import Mathlib

/-!
Verification of the `gaol` sandbox core (`src/sandbox.rs`) against its
natural-language specification.

The Rust code is shallowly embedded: byte strings are `List Nat`, the Rust
`CString::from_slice` constructor (which panics on an interior NUL byte) is
modelled as an `Option`-returning function where `none` stands for the panic,
the `HashMap<CString, CString>` environment is an association list with
overwrite-on-insert, and the fallible OS calls (`env::current_exe`, process
spawning) are passed in as explicit oracles returning `Except IoError _`.
Rust receiver modes (`&self` vs `self`) are recorded explicitly where a claim
is about ownership.
-/

set_option autoImplicit false

namespace Gaol

/-- Raw byte strings, as handed to the builder API (`BytesContainer` in the
source exposes `container_as_bytes`). -/
abbrev Bytes := List Nat

/-- Embeds `std::ffi::CString`: a byte string with no interior NUL, stored
without its terminating NUL. -/
structure CStr where
  bytes : Bytes
deriving DecidableEq

/-- Embeds `CString::from_slice` from the source's std (early-2015 Rust):
it panics when the slice contains an interior NUL byte, otherwise stores the
bytes verbatim. The panic is modelled as `none`. -/
def CStr.fromSlice (bs : Bytes) : Option CStr :=
  if 0 ∈ bs then none else some ⟨bs⟩

/-- Association-list view of `HashMap<CString, CString>`. -/
abbrev EnvMap := List (CStr × CStr)

/-- Embeds `HashMap::insert`: overwrites the value of an existing key,
otherwise adds the entry. -/
def envInsert (m : EnvMap) (k v : CStr) : EnvMap :=
  if m.any (fun p => p.1 = k) then
    m.map (fun p => if p.1 = k then (k, v) else p)
  else
    m ++ [(k, v)]

/-- Embeds `HashMap` lookup (the map observed through `get`/iteration). -/
def envLookup (m : EnvMap) (k : CStr) : Option CStr :=
  (m.find? (fun p => p.1 = k)).map (fun p => p.2)

/-- Embeds `struct Command` of `src/sandbox.rs`: module path, positional
arguments and environment map. -/
structure Command where
  module_path : CStr
  args : List CStr
  env : EnvMap
deriving DecidableEq

/-- Embeds `Command::new`: builds a command with the given path and no
arguments and no environment. `CString::from_slice` panics (`none`) on an
interior NUL in the path. -/
def Command.new (module_path : Bytes) : Option Command :=
  (CStr.fromSlice module_path).map (fun p => ⟨p, [], []⟩)

/-- Embeds `Command::arg`: pushes one argument. Panics (`none`) on an
interior NUL. -/
def Command.arg (c : Command) (a : Bytes) : Option Command :=
  (CStr.fromSlice a).map (fun s => { c with args := c.args ++ [s] })

/-- Embeds `Command::args`: extends the argument vector with each value in
order (named `args'` because the struct field `args` takes the name). -/
def Command.args' (c : Command) (as : List Bytes) : Option Command :=
  as.foldl (fun oc a => oc.bind (fun c => c.arg a)) (some c)

/-- Embeds `Command::env`: inserts or updates one environment mapping
(named `env'` because the struct field `env` takes the name). -/
def Command.env' (c : Command) (k v : Bytes) : Option Command :=
  (CStr.fromSlice k).bind (fun ks =>
    (CStr.fromSlice v).map (fun vs => { c with env := envInsert c.env ks vs }))

/-- Embeds `std::old_io::IoErrorKind` (only the shape matters: an error value
carries a specific kind). -/
inductive IoErrorKind
  | fileNotFound
  | permissionDenied
  | otherIoError
deriving DecidableEq

/-- Embeds `std::old_io::IoError`: the error value carried by `IoResult`. -/
structure IoError where
  kind : IoErrorKind
deriving DecidableEq

/-- Opaque handle to a spawned OS process (`old_io::process::Process`). -/
structure Process where
  pid : Nat
deriving DecidableEq

/-- How the OS request describes the child's environment: `old_io`'s
`env_set_all` sets exactly the given pairs, while the default inherits the
parent's ambient environment with an overlay. The source always uses
`env_set_all`. -/
inductive EnvSpec
  | setAll (pairs : EnvMap)
  | inheritAmbient (overlay : EnvMap)
deriving DecidableEq

/-- The OS process-creation request that `Command::spawn` materialises:
`process::Command::new(&self.module_path).args(self.args).env_set_all(env)`. -/
structure SpawnRequest where
  path : CStr
  argv : List CStr
  envSpec : EnvSpec
deriving DecidableEq

/-- The request `Command::spawn` builds from the accumulated configuration. -/
def Command.spawnRequest (c : Command) : SpawnRequest :=
  ⟨c.module_path, c.args, EnvSpec.setAll c.env⟩

/-- Embeds `Command::spawn`: hands the materialised request to the OS spawn
primitive (passed as an oracle) and returns its result unchanged. -/
def Command.spawn (osSpawn : SpawnRequest → Except IoError Process)
    (c : Command) : Except IoError Process :=
  osSpawn c.spawnRequest

/-- Embeds `Command::me`: `Ok(Command::new(try!(env::current_exe())))`.
The OS's `env::current_exe` result is passed in; `try!` propagates its error.
The outer `Option` models the (theoretical) `CString::from_slice` panic on
the returned path; `none` is a panic, `some` a normal return. -/
def Command.me (currentExe : Except IoError Bytes) :
    Option (Except IoError Command) :=
  match currentExe with
  | Except.error e => some (Except.error e)
  | Except.ok p => (Command.new p).map Except.ok

/-- The environment a child process actually receives under `old_io`
semantics, given the parent's ambient environment and the request's
environment specification: `setAll` replaces the environment wholesale,
the default overlays onto the inherited ambient one. -/
def childEnv (ambient : EnvMap) : EnvSpec → EnvMap
  | EnvSpec.setAll ps => ps
  | EnvSpec.inheritAmbient overlay =>
      overlay.foldl (fun m kv => envInsert m kv.1 kv.2) ambient

/-- Rust receiver modes, used to state ownership-level claims about the API. -/
inductive ReceiverMode
  | byRef
  | byMutRef
  | byValue
deriving DecidableEq

/-- Receiver of `Command::spawn` in the source: `pub fn spawn(&self)` — a
shared reference, not a consuming `self`. -/
def Command.spawnReceiver : ReceiverMode := ReceiverMode.byRef

/-- Receiver of `ChildSandboxMethods::activate` in the source:
`fn activate(&self)` — a shared reference, not a consuming `self`. -/
def ChildSandbox.activateReceiver : ReceiverMode := ReceiverMode.byRef

/-- Modelled from the spec: the `Profile` policy value is external to this
core and consumed opaquely, so it is an abstract immutable token here. -/
structure Profile where
  policyId : Nat
deriving DecidableEq

/-- Modelled from the spec: the platform-specific `ChildSandbox`
implementations live outside `src/` (only the trait declaration
`fn activate(&self) -> Result<(),()>` is in `src/sandbox.rs`). The field
`applyRestrictions` records whether the platform's application of the
profile's restrictions inside the calling process succeeds. -/
structure ChildSandbox where
  profile : Profile
  applyRestrictions : Bool
deriving DecidableEq

/-- Modelled from the spec: `ChildSandbox::activate` applies the profile's
restrictions and reports the outcome as the `Result<(),()>` value declared in
`src/sandbox.rs` — `Ok(())` exactly when the platform application succeeded,
`Err(())` otherwise, never a default success. -/
def ChildSandbox.activate (sb : ChildSandbox) : Except Unit Unit :=
  if sb.applyRestrictions then Except.ok () else Except.error ()

/-- Two successive `activate` calls on the same `ChildSandbox` value: the
source's `&self` receiver makes this well-typed. -/
def ChildSandbox.activateTwice (sb : ChildSandbox) :
    Except Unit Unit × Except Unit Unit :=
  (sb.activate, sb.activate)

/-- Modelled from the spec: the platform-specific parent-side `Sandbox`
implementations live outside `src/` (only the trait declaration
`fn start(&self, command: &mut Command) -> IoResult<Process>` is in
`src/sandbox.rs`). The field `preSetup` records the outcome of the backend's
parent-side pre-spawn configuration. -/
structure Sandbox where
  profile : Profile
  preSetup : Except IoError Unit

/-- Modelled from the spec: `Sandbox::start` performs the backend's
parent-side setup and then delegates to the command's spawn, propagating
either failure unchanged. -/
def Sandbox.start (sb : Sandbox) (osSpawn : SpawnRequest → Except IoError Process)
    (c : Command) : Except IoError Process :=
  match sb.preSetup with
  | Except.error e => Except.error e
  | Except.ok _ => c.spawn osSpawn

/-- One builder call of the argument-accumulation API. -/
inductive BuildCall
  | argCall (a : Bytes)
  | argsCall (as : List Bytes)
deriving DecidableEq

/-- Applies one builder call to a command. -/
def applyCall (c : Command) : BuildCall → Option Command
  | BuildCall.argCall a => c.arg a
  | BuildCall.argsCall as => c.args' as

/-- Applies a sequence of `arg`/`args` builder calls in order. -/
def applyCalls (c : Command) (cs : List BuildCall) : Option Command :=
  cs.foldl (fun oc call => oc.bind (fun c => applyCall c call)) (some c)

/-- The byte strings a builder call supplies, in order. -/
def callBytes : BuildCall → List Bytes
  | BuildCall.argCall a => [a]
  | BuildCall.argsCall as => as

/-- All byte strings supplied by a call sequence, flattened in call order. -/
def suppliedArgs (cs : List BuildCall) : List Bytes :=
  (cs.map callBytes).flatten

/-! ### Helper lemmas -/

theorem CStr.mk_injective (a b : Bytes) (h : (⟨a⟩ : CStr) = ⟨b⟩) : a = b := by
  cases h; rfl

theorem find?_map_overwrite (m : EnvMap) (k v : CStr)
    (h : m.any (fun p => p.1 = k) = true) :
    (m.map (fun p => if p.1 = k then (k, v) else p)).find?
      (fun p => p.1 = k) = some (k, v) := by
  induction m with
  | nil => simp at h
  | cons p rest ih =>
    by_cases hp : p.1 = k
    · rw [List.map_cons, if_pos hp]
      exact List.find?_cons_of_pos _ (by simp)
    · have h' : rest.any (fun p => p.1 = k) = true := by
        simpa [List.any_cons, hp] using h
      rw [List.map_cons, if_neg hp, List.find?_cons_of_neg _ (by simp [hp])]
      exact ih h'

theorem envLookup_envInsert_self (m : EnvMap) (k v : CStr) :
    envLookup (envInsert m k v) k = some v := by
  unfold envInsert envLookup
  by_cases h : m.any (fun p => p.1 = k)
  · rw [if_pos h, find?_map_overwrite m k v h]
    rfl
  · rw [if_neg h]
    have hnone : m.find? (fun p => decide (p.1 = k)) = none := by
      rw [List.find?_eq_none]
      intro p hp
      simp only [List.any_eq_true, decide_eq_true_eq, not_exists, not_and] at h
      simp [h p hp]
    rw [List.find?_append, hnone]
    simp [List.find?]

theorem mem_envInsert_self (m : EnvMap) (k v w : CStr)
    (h : (k, w) ∈ envInsert m k v) : w = v := by
  unfold envInsert at h
  by_cases hany : m.any (fun p => p.1 = k)
  · simp only [hany, if_true] at h
    rcases List.mem_map.1 h with ⟨p, _, hfp⟩
    by_cases hp : p.1 = k
    · rw [if_pos hp] at hfp
      exact (Prod.mk.injEq _ _ _ _ ▸ hfp).2.symm ▸ rfl
    · rw [if_neg hp] at hfp
      exact absurd (congrArg Prod.fst hfp) hp
  · simp only [hany, Bool.false_eq_true, if_neg, if_false] at h
    rcases List.mem_append.1 h with hm | hl
    · simp only [List.any_eq_true, decide_eq_true_eq, not_exists, not_and] at hany
      exact absurd rfl (hany (k, w) hm)
    · simpa using hl

theorem arg_eq (c c2 : Command) (a : Bytes) (h : c.arg a = some c2) :
    0 ∉ a ∧ c2 = ⟨c.module_path, c.args ++ [⟨a⟩], c.env⟩ := by
  unfold Command.arg CStr.fromSlice at h
  by_cases ha : 0 ∈ a
  · rw [if_pos ha] at h; simp at h
  · rw [if_neg ha] at h
    exact ⟨ha, (Option.some.inj h).symm⟩

theorem env_eq (c c2 : Command) (k v : Bytes) (h : c.env' k v = some c2) :
    0 ∉ k ∧ 0 ∉ v ∧ c2 = ⟨c.module_path, c.args, envInsert c.env ⟨k⟩ ⟨v⟩⟩ := by
  unfold Command.env' CStr.fromSlice at h
  by_cases hk : 0 ∈ k
  · rw [if_pos hk] at h; simp at h
  · by_cases hv : 0 ∈ v
    · rw [if_neg hk, if_pos hv] at h; simp at h
    · rw [if_neg hk, if_neg hv] at h
      exact ⟨hk, hv, (Option.some.inj h).symm⟩

theorem foldl_bind_none {β : Type} (g : Command → β → Option Command) (bs : List β) :
    bs.foldl (fun oc b => oc.bind (fun c => g c b)) none = none := by
  induction bs with
  | nil => rfl
  | cons b bs ih => simpa using ih

theorem args'_cons (c : Command) (a : Bytes) (as : List Bytes) :
    c.args' (a :: as) = (c.arg a).bind (fun c' => c'.args' as) := by
  unfold Command.args'
  cases h : c.arg a with
  | none => simp [List.foldl_cons, h, foldl_bind_none]
  | some c' => simp [List.foldl_cons, h]

theorem args_append (c c2 : Command) (as : List Bytes)
    (h : c.args' as = some c2) :
    c2.module_path = c.module_path ∧
    c2.args = c.args ++ as.map CStr.mk ∧
    c2.env = c.env := by
  induction as generalizing c with
  | nil =>
    obtain rfl := Option.some.inj h
    exact ⟨rfl, by simp, rfl⟩
  | cons a as ih =>
    rw [args'_cons] at h
    cases ha : c.arg a with
    | none => rw [ha] at h; simp at h
    | some c' =>
      rw [ha] at h
      rcases arg_eq c c' a ha with ⟨_, rfl⟩
      rcases ih _ h with ⟨h1, h2, h3⟩
      exact ⟨h1, by simp [h2], h3⟩

theorem applyCalls_cons (c : Command) (call : BuildCall) (cs : List BuildCall) :
    applyCalls c (call :: cs) = (applyCall c call).bind (fun c' => applyCalls c' cs) := by
  unfold applyCalls
  cases h : applyCall c call with
  | none => simp [List.foldl_cons, h, foldl_bind_none]
  | some c' => simp [List.foldl_cons, h]

theorem applyCalls_args (cs : List BuildCall) :
    ∀ c c2 : Command, applyCalls c cs = some c2 →
      c2.args = c.args ++ (suppliedArgs cs).map CStr.mk := by
  induction cs with
  | nil =>
    intro c c2 h
    obtain rfl := Option.some.inj h
    simp [suppliedArgs]
  | cons call cs ih =>
    intro c c2 h
    rw [applyCalls_cons] at h
    cases hc : applyCall c call with
    | none => rw [hc] at h; simp at h
    | some c' =>
      rw [hc] at h
      have hstep : c'.args = c.args ++ (callBytes call).map CStr.mk := by
        cases call with
        | argCall a =>
          rcases arg_eq c c' a hc with ⟨_, rfl⟩
          simp [callBytes]
        | argsCall as =>
          rcases args_append c c' as hc with ⟨_, h2, _⟩
          simpa [callBytes] using h2
      rw [ih c' c2 h, hstep]
      simp [suppliedArgs, List.append_assoc]

/-! ### Claim theorems -/

/-- Claim C1 (amended): an interior NUL byte in the path given to
`Command::new`, an argument given to `arg`, or a key or value given to
`env` makes the operation panic — `CString::from_slice` panics on interior
NUL, modelled as `none` — so no `Command` value is produced and hence no
process can be spawned from it. The builder signatures return `Command` /
`&mut Command`, so no `InvalidArgument` error value is possible. -/
theorem null_byte_input_panics (p a k v : Bytes) (c : Command)
    (hp : 0 ∈ p) (ha : 0 ∈ a) (hkv : 0 ∈ k ∨ 0 ∈ v) :
    Command.new p = none ∧ c.arg a = none ∧ c.env' k v = none := by
  refine ⟨by simp [Command.new, CStr.fromSlice, hp],
          by simp [Command.arg, CStr.fromSlice, ha], ?_⟩
  rcases hkv with hk | hv
  · simp [Command.env', CStr.fromSlice, hk]
  · by_cases hk : 0 ∈ k <;> simp [Command.env', CStr.fromSlice, hk, hv]

/-- Witness for C1 at concrete NUL-containing inputs. -/
theorem null_byte_input_panics_witness :
    Command.new [0] = none ∧
    Command.arg ⟨⟨[47]⟩, [], []⟩ [1, 0] = none ∧
    Command.env' ⟨⟨[47]⟩, [], []⟩ [0] [2] = none :=
  null_byte_input_panics [0] [1, 0] [0] [2] ⟨⟨[47]⟩, [], []⟩
    (by decide) (by decide) (Or.inl (by decide))

/-- Counterexample for C1 as stated: on concrete NUL-containing inputs the
builder operations panic (`none` in the model) instead of returning an
`InvalidArgument` error value — their signatures have no error channel at
all. -/
theorem null_byte_invalid_argument_cex :
    Command.new [65, 0, 66] = none ∧
    Command.arg ⟨⟨[47]⟩, [], []⟩ [0] = none ∧
    Command.env' ⟨⟨[47]⟩, [], []⟩ [75] [0, 97] = none := by
  decide

/-- Claim C2: the environment `spawn` hands to the OS is exactly the
accumulated map — the request uses `env_set_all`, so whatever the parent's
ambient environment is, the child receives precisely the accumulated
entries, none inherited and none dropped. -/
theorem spawn_env_exactly_accumulated (ambient : EnvMap) (c : Command)
    (osSpawn : SpawnRequest → Except IoError Process) :
    childEnv ambient c.spawnRequest.envSpec = c.env ∧
    c.spawn osSpawn = osSpawn ⟨c.module_path, c.args, EnvSpec.setAll c.env⟩ :=
  ⟨rfl, rfl⟩

/-- Claim C3: `spawn` propagates the OS spawn result (in particular any
`IoError`, with its kind) verbatim; `start` propagates either the backend's
pre-spawn configuration error or the spawn result; `activate` reports
failure as the `Err(())` value exactly when the platform's restriction
application fails, and always returns an `Ok`/`Err` value — no failure is
swallowed or downgraded to a default. -/
theorem fallible_ops_return_results :
    (∀ (osSpawn : SpawnRequest → Except IoError Process) (c : Command) (e : IoError),
        osSpawn c.spawnRequest = Except.error e → c.spawn osSpawn = Except.error e) ∧
    (∀ (osSpawn : SpawnRequest → Except IoError Process) (c : Command) (pr : Process),
        osSpawn c.spawnRequest = Except.ok pr → c.spawn osSpawn = Except.ok pr) ∧
    (∀ (sb : Sandbox) (osSpawn : SpawnRequest → Except IoError Process)
        (c : Command) (e : IoError),
        sb.preSetup = Except.error e → sb.start osSpawn c = Except.error e) ∧
    (∀ (sb : Sandbox) (osSpawn : SpawnRequest → Except IoError Process) (c : Command),
        sb.preSetup = Except.ok () → sb.start osSpawn c = c.spawn osSpawn) ∧
    (∀ sb : ChildSandbox, sb.activate = Except.error () ↔ sb.applyRestrictions = false) ∧
    (∀ sb : ChildSandbox, sb.activate = Except.ok () ∨ sb.activate = Except.error ()) := by
  refine ⟨fun _ _ _ h => h, fun _ _ _ h => h, ?_, ?_, ?_, ?_⟩
  · intro sb os c e h
    simp [Sandbox.start, h]
  · intro sb os c h
    simp [Sandbox.start, h]
  · intro sb
    unfold ChildSandbox.activate
    by_cases hr : sb.applyRestrictions <;> simp [hr]
  · intro sb
    unfold ChildSandbox.activate
    by_cases hr : sb.applyRestrictions <;> simp [hr]

/-- Witness for C3 at concrete failing oracles. -/
theorem fallible_ops_return_results_witness :
    Command.spawn (fun _ => Except.error ⟨IoErrorKind.fileNotFound⟩) ⟨⟨[47]⟩, [], []⟩
        = Except.error ⟨IoErrorKind.fileNotFound⟩ ∧
    Sandbox.start ⟨⟨0⟩, Except.error ⟨IoErrorKind.permissionDenied⟩⟩
        (fun _ => Except.ok ⟨1⟩) ⟨⟨[47]⟩, [], []⟩
        = Except.error ⟨IoErrorKind.permissionDenied⟩ ∧
    ChildSandbox.activate ⟨⟨0⟩, false⟩ = Except.error () :=
  ⟨fallible_ops_return_results.1 _ _ _ rfl,
   fallible_ops_return_results.2.2.1 _ _ _ _ rfl,
   (fallible_ops_return_results.2.2.2.2.1 ⟨⟨0⟩, false⟩).2 rfl⟩

/-- Claim C4: environment accumulation is last-write-wins per key — after
`env(K, a)` then `env(K, b)` the accumulated map sends `K` to exactly `b`,
the child's received environment sends `K` to `b`, and no residual binding
of `K` to `a` survives into the child's environment. -/
theorem env_last_write_wins (c c1 c2 : Command) (k a b : Bytes) (ambient : EnvMap)
    (hab : a ≠ b)
    (h1 : c.env' k a = some c1) (h2 : c1.env' k b = some c2) :
    envLookup c2.env ⟨k⟩ = some ⟨b⟩ ∧
    envLookup (childEnv ambient c2.spawnRequest.envSpec) ⟨k⟩ = some ⟨b⟩ ∧
    (⟨k⟩, ⟨a⟩) ∉ childEnv ambient c2.spawnRequest.envSpec := by
  rcases env_eq c c1 k a h1 with ⟨_, _, rfl⟩
  rcases env_eq _ c2 k b h2 with ⟨_, _, rfl⟩
  refine ⟨envLookup_envInsert_self _ _ _, envLookup_envInsert_self _ _ _, ?_⟩
  intro hmem
  exact hab (CStr.mk_injective a b (mem_envInsert_self _ _ _ _ hmem))

/-- Witness for C4 at concrete key/values. -/
theorem env_last_write_wins_witness :
    envLookup (Command.mk ⟨[47]⟩ [] [(⟨[75]⟩, ⟨[98]⟩)]).env ⟨[75]⟩ = some ⟨[98]⟩ ∧
    envLookup (childEnv [(⟨[90]⟩, ⟨[91]⟩)]
        (Command.mk ⟨[47]⟩ [] [(⟨[75]⟩, ⟨[98]⟩)]).spawnRequest.envSpec) ⟨[75]⟩
      = some ⟨[98]⟩ ∧
    (⟨[75]⟩, ⟨[97]⟩) ∉ childEnv [(⟨[90]⟩, ⟨[91]⟩)]
        (Command.mk ⟨[47]⟩ [] [(⟨[75]⟩, ⟨[98]⟩)]).spawnRequest.envSpec :=
  env_last_write_wins ⟨⟨[47]⟩, [], []⟩ ⟨⟨[47]⟩, [], [(⟨[75]⟩, ⟨[97]⟩)]⟩
    ⟨⟨[47]⟩, [], [(⟨[75]⟩, ⟨[98]⟩)]⟩ [75] [97] [98] [(⟨[90]⟩, ⟨[91]⟩)]
    (by decide) (by decide) (by decide)

/-- Claim C5: applying any sequence of `arg`/`args` calls appends exactly
the supplied values in call order to the argument list, and the spawn
request's argv is exactly that list. -/
theorem args_accumulate_in_call_order (c c2 : Command) (cs : List BuildCall)
    (h : applyCalls c cs = some c2) :
    c2.args = c.args ++ (suppliedArgs cs).map CStr.mk ∧
    c2.spawnRequest.argv = c2.args :=
  ⟨applyCalls_args cs c c2 h, rfl⟩

/-- Witness for C5 at a concrete call sequence. -/
theorem args_accumulate_in_call_order_witness :
    (Command.mk ⟨[47]⟩ [⟨[45]⟩, ⟨[102]⟩, ⟨[103]⟩] []).args
        = (Command.mk ⟨[47]⟩ [] []).args
          ++ (suppliedArgs [BuildCall.argCall [45],
                BuildCall.argsCall [[102], [103]]]).map CStr.mk ∧
    (Command.mk ⟨[47]⟩ [⟨[45]⟩, ⟨[102]⟩, ⟨[103]⟩] []).spawnRequest.argv
        = (Command.mk ⟨[47]⟩ [⟨[45]⟩, ⟨[102]⟩, ⟨[103]⟩] []).args :=
  args_accumulate_in_call_order ⟨⟨[47]⟩, [], []⟩
    ⟨⟨[47]⟩, [⟨[45]⟩, ⟨[102]⟩, ⟨[103]⟩], []⟩
    [BuildCall.argCall [45], BuildCall.argsCall [[102], [103]]] (by decide)

/-- Claim C6 (amended): `spawn` takes the builder by shared reference
(`&self`), not by move — the builder is not consumed and may be spawned
again — and it only reads the accumulated configuration: the OS request is
built purely from the unchanged path, argument and environment fields. -/
theorem spawn_borrows_and_reads_only (c : Command)
    (osSpawn : SpawnRequest → Except IoError Process) :
    Command.spawnReceiver = ReceiverMode.byRef ∧
    c.spawnRequest.path = c.module_path ∧
    c.spawnRequest.argv = c.args ∧
    c.spawnRequest.envSpec = EnvSpec.setAll c.env ∧
    c.spawn osSpawn = osSpawn c.spawnRequest :=
  ⟨rfl, rfl, rfl, rfl, rfl⟩

/-- Counterexample for C6 as stated: the receiver of `spawn` is `&self`,
not a consuming `self`, and a second spawn from the same builder value is
well-typed and succeeds. -/
theorem spawn_by_move_cex :
    Command.spawnReceiver ≠ ReceiverMode.byValue ∧
    (Command.spawn (fun _ => Except.ok ⟨7⟩) ⟨⟨[47]⟩, [], []⟩,
      Command.spawn (fun _ => Except.ok ⟨7⟩) ⟨⟨[47]⟩, [], []⟩)
      = (Except.ok ⟨7⟩, Except.ok ⟨7⟩) :=
  ⟨by decide, rfl⟩

/-- Claim C7 (amended): `activate` takes `&self`, so the `ChildSandbox`
value is not consumed and a second `activate` call on the same value is
well-typed; one-shot use is a caller obligation, not enforced by the
type/ownership system, and the second call behaves like the first. -/
theorem activate_not_type_enforced_one_shot (sb : ChildSandbox) :
    ChildSandbox.activateReceiver = ReceiverMode.byRef ∧
    sb.activateTwice = (sb.activate, sb.activate) ∧
    sb.activateTwice.2 = sb.activateTwice.1 :=
  ⟨rfl, rfl, rfl⟩

/-- Counterexample for C7 as stated: the receiver of `activate` is `&self`,
not a consuming `self`, and a concrete second activation attempt on the
same value type-checks and runs. -/
theorem activate_one_shot_cex :
    ChildSandbox.activateReceiver ≠ ReceiverMode.byValue ∧
    ChildSandbox.activateTwice ⟨⟨0⟩, true⟩ = (Except.ok (), Except.ok ()) :=
  ⟨by decide, rfl⟩

/-- Claim C8: `Command::me` builds exactly the command `Command::new` would
build from the OS-reported current-executable path, and when the OS lookup
fails it returns that lookup error (the spec's `EnvironmentLookupFailed`)
rather than succeeding or panicking. -/
theorem me_resolves_current_exe (p : Bytes) (e : IoError) (hp : 0 ∉ p) :
    Command.me (Except.ok p) = some (Except.ok ⟨⟨p⟩, [], []⟩) ∧
    Command.new p = some ⟨⟨p⟩, [], []⟩ ∧
    Command.me (Except.error e) = some (Except.error e) := by
  have hnew : Command.new p = some ⟨⟨p⟩, [], []⟩ := by
    simp [Command.new, CStr.fromSlice, hp]
  exact ⟨by simp [Command.me, hnew], hnew, rfl⟩

/-- Witness for C8 at a concrete path and a concrete lookup failure. -/
theorem me_resolves_current_exe_witness :
    Command.me (Except.ok [47, 115]) = some (Except.ok ⟨⟨[47, 115]⟩, [], []⟩) ∧
    Command.new [47, 115] = some ⟨⟨[47, 115]⟩, [], []⟩ ∧
    Command.me (Except.error ⟨IoErrorKind.otherIoError⟩)
      = some (Except.error ⟨IoErrorKind.otherIoError⟩) :=
  me_resolves_current_exe [47, 115] ⟨IoErrorKind.otherIoError⟩ (by decide)

/-- Claim C9: every command produced by `Command::new` has exactly the
supplied path bytes as its module path, an empty argument list and an empty
environment map. -/
theorem new_command_defaults (p : Bytes) (c : Command)
    (h : Command.new p = some c) :
    c.module_path = ⟨p⟩ ∧ c.args = [] ∧ c.env = [] := by
  unfold Command.new CStr.fromSlice at h
  by_cases hp : 0 ∈ p
  · rw [if_pos hp] at h
    simp at h
  · rw [if_neg hp] at h
    obtain rfl := Option.some.inj h
    exact ⟨rfl, rfl, rfl⟩

/-- Witness for C9 at a concrete path. -/
theorem new_command_defaults_witness :
    (Command.mk ⟨[47, 98]⟩ [] []).module_path = ⟨[47, 98]⟩ ∧
    (Command.mk ⟨[47, 98]⟩ [] []).args = [] ∧
    (Command.mk ⟨[47, 98]⟩ [] []).env = [] :=
  new_command_defaults [47, 98] ⟨⟨[47, 98]⟩, [], []⟩ (by decide)

/-- Claim C10: each builder call only touches its own field — `arg` and
`args` leave the path and environment unchanged, `env` leaves the path and
argument list unchanged. -/
theorem builder_frame_conditions (c c1 c2 c3 : Command) (a : Bytes)
    (as : List Bytes) (k v : Bytes)
    (h1 : c.arg a = some c1) (h2 : c.args' as = some c2)
    (h3 : c.env' k v = some c3) :
    (c1.module_path = c.module_path ∧ c1.env = c.env) ∧
    (c2.module_path = c.module_path ∧ c2.env = c.env) ∧
    (c3.module_path = c.module_path ∧ c3.args = c.args) := by
  rcases arg_eq c c1 a h1 with ⟨_, rfl⟩
  rcases args_append c c2 as h2 with ⟨e1, _, e3⟩
  rcases env_eq c c3 k v h3 with ⟨_, _, rfl⟩
  exact ⟨⟨rfl, rfl⟩, ⟨e1, e3⟩, ⟨rfl, rfl⟩⟩

/-- Witness for C10 at concrete builder calls. -/
theorem builder_frame_conditions_witness :
    ((Command.mk ⟨[47]⟩ [⟨[97]⟩] [(⟨[75]⟩, ⟨[86]⟩)]).module_path
        = (Command.mk ⟨[47]⟩ [] [(⟨[75]⟩, ⟨[86]⟩)]).module_path ∧
      (Command.mk ⟨[47]⟩ [⟨[97]⟩] [(⟨[75]⟩, ⟨[86]⟩)]).env
        = (Command.mk ⟨[47]⟩ [] [(⟨[75]⟩, ⟨[86]⟩)]).env) ∧
    ((Command.mk ⟨[47]⟩ [⟨[98]⟩, ⟨[99]⟩] [(⟨[75]⟩, ⟨[86]⟩)]).module_path
        = (Command.mk ⟨[47]⟩ [] [(⟨[75]⟩, ⟨[86]⟩)]).module_path ∧
      (Command.mk ⟨[47]⟩ [⟨[98]⟩, ⟨[99]⟩] [(⟨[75]⟩, ⟨[86]⟩)]).env
        = (Command.mk ⟨[47]⟩ [] [(⟨[75]⟩, ⟨[86]⟩)]).env) ∧
    ((Command.mk ⟨[47]⟩ [] [(⟨[75]⟩, ⟨[87]⟩)]).module_path
        = (Command.mk ⟨[47]⟩ [] [(⟨[75]⟩, ⟨[86]⟩)]).module_path ∧
      (Command.mk ⟨[47]⟩ [] [(⟨[75]⟩, ⟨[87]⟩)]).args
        = (Command.mk ⟨[47]⟩ [] [(⟨[75]⟩, ⟨[86]⟩)]).args) :=
  builder_frame_conditions ⟨⟨[47]⟩, [], [(⟨[75]⟩, ⟨[86]⟩)]⟩
    ⟨⟨[47]⟩, [⟨[97]⟩], [(⟨[75]⟩, ⟨[86]⟩)]⟩
    ⟨⟨[47]⟩, [⟨[98]⟩, ⟨[99]⟩], [(⟨[75]⟩, ⟨[86]⟩)]⟩
    ⟨⟨[47]⟩, [], [(⟨[75]⟩, ⟨[87]⟩)]⟩
    [97] [[98], [99]] [75] [87] (by decide) (by decide) (by decide)

end Gaol
